import Mathlib

/-!
Verification of the coilgun simulation core (Moonshot-2.0).

Shallow embedding of the Python sources into Lean 4 over the real numbers:
  - src/core/coil.py              (CoilProperties, Coil.set_current, inductance)
  - src/core/capsule.py           (Capsule)
  - src/core/acceleration_stage.py (AccelerationStage)
  - src/physics/physics_engine.py (PhysicsEngine)
  - src/services/data_service.py  (DataService.record / get_results)
  - src/services/simulation_service.py (SimulationService)

Fallible operations (Python raising ValueError) are embedded as
Except String; float arithmetic is idealized as real arithmetic.
-/

noncomputable section

open Real

/-- Permeability of free space, 4π×10⁻⁷ H/m (PhysicsEngine.__init__ and
Coil._calculate_inductance). -/
def mu0 : ℝ := 4 * Real.pi * 1e-7

/-- Immutable coil geometry value object (coil.py, CoilProperties). -/
structure CoilProperties where
  turns : ℤ
  diameter : ℝ
  length : ℝ
  resistance : ℝ
  position : ℝ

/-- Validating constructor for CoilProperties (CoilProperties.__post_init__):
rejects non-positive turns, diameter or length. -/
def mkCoilProperties (turns : ℤ) (diameter length resistance position : ℝ) :
    Except String CoilProperties :=
  if turns ≤ 0 then .error "Turns must be positive"
  else if diameter ≤ 0 then .error "Diameter must be positive"
  else if length ≤ 0 then .error "Length must be positive"
  else .ok ⟨turns, diameter, length, resistance, position⟩

/-- Solenoid self-inductance L = μ₀·(N/ℓ)²·(π r²)·ℓ
(Coil._calculate_inductance; the lazy memoization in coil.py is a pure
cache of this value, geometry being immutable). -/
def inductanceOf (p : CoilProperties) : ℝ :=
  let radius := p.diameter / 2
  let area := Real.pi * radius ^ 2
  let turnsPerLength := (p.turns : ℝ) / p.length
  mu0 * turnsPerLength ^ 2 * area * p.length

/-- Moving projectile state (capsule.py, Capsule): coil data plus mass,
axial position and velocity. -/
structure Capsule where
  props : CoilProperties
  current : ℝ
  mass : ℝ
  position : ℝ
  velocity : ℝ

/-- Aluminum-cylinder resistance (Capsule._calculate_resistance):
R = ρ_al · (π·d) / (π·d·0.01); the length argument is accepted but unused,
exactly as in the source. -/
def capsuleResistance (diameter _length : ℝ) : ℝ :=
  let rhoAluminum : ℝ := 2.65e-8
  let currentPath := Real.pi * diameter
  let effectiveArea := Real.pi * diameter * 0.01
  rhoAluminum * currentPath / effectiveArea

/-- Capsule constructor (Capsule.__init__): validates mass, builds a
single-turn CoilProperties (which validates geometry), starts at
position 0, velocity 0, current 0. -/
def mkCapsule (mass diameter length : ℝ) : Except String Capsule :=
  if mass ≤ 0 then .error "Mass must be positive"
  else
    (mkCoilProperties 1 diameter length (capsuleResistance diameter length) 0).map
      (fun props => ⟨props, 0, mass, 0, 0⟩)

/-- Current setter inherited from Coil.set_current: rejects negative values,
otherwise stores the value. -/
def Capsule.setCurrent (c : Capsule) (current : ℝ) : Except String Capsule :=
  if current < 0 then .error "Current cannot be negative"
  else .ok { c with current := current }

/-- Position mutator (Capsule.update_position): overwrites the capsule
position and rebuilds the embedded properties with the new position
(all other property fields copied unchanged). -/
def Capsule.updatePosition (c : Capsule) (newPosition : ℝ) : Capsule :=
  { c with position := newPosition,
           props := { c.props with position := newPosition } }

/-- Velocity mutator (Capsule.update_velocity). -/
def Capsule.updateVelocity (c : Capsule) (newVelocity : ℝ) : Capsule :=
  { c with velocity := newVelocity }

/-- Euler-step kinematics (Capsule.apply_force): the velocity is updated
first, and the position update then reads the just-updated velocity
(self.velocity after the += line), followed by update_position syncing the
embedded properties. -/
def Capsule.applyForce (c : Capsule) (force timeStep : ℝ) : Capsule :=
  let acceleration := force / c.mass
  let newVelocity := c.velocity + acceleration * timeStep
  let newPosition :=
    c.position + newVelocity * timeStep + 0.5 * acceleration * timeStep ^ 2
  ({ c with velocity := newVelocity, position := newPosition }).updatePosition
    newPosition

/-- Fixed capacitor-driven coil (acceleration_stage.py, AccelerationStage). -/
structure AccelerationStage where
  props : CoilProperties
  current : ℝ
  stageId : ℤ
  capacitance : ℝ
  voltage : ℝ
  activationTime : Option ℝ
  isActive : Bool

/-- Copper wire resistance (AccelerationStage._calculate_copper_resistance):
R = ρ_cu · (turns·π·d) / (π·(w/2)²) with 14 AWG wire diameter w. -/
def copperResistance (turns : ℤ) (diameter _length : ℝ) : ℝ :=
  let rhoCopper : ℝ := 1.68e-8
  let wireDiameter : ℝ := 1.628e-3
  let wireArea := Real.pi * (wireDiameter / 2) ^ 2
  let totalWireLength := (turns : ℝ) * (Real.pi * diameter)
  rhoCopper * totalWireLength / wireArea

/-- Stage constructor (AccelerationStage.__init__): geometry is validated by
CoilProperties; capacitance and voltage are stored without any check, exactly
as in the source. -/
def mkAccelerationStage (stageId : ℤ) (position : ℝ) (turns : ℤ)
    (diameter length capacitance voltage : ℝ) : Except String AccelerationStage :=
  (mkCoilProperties turns diameter length
      (copperResistance turns diameter length) position).map
    (fun props => ⟨props, 0, stageId, capacitance, voltage, none, false⟩)

/-- Stage activation (AccelerationStage.activate): latches the activation
time and marks the stage active. -/
def AccelerationStage.activate (s : AccelerationStage) (time : ℝ) :
    AccelerationStage :=
  { s with activationTime := some time, isActive := true }

/-- RLC discharge current (AccelerationStage.get_current): 0 when inactive,
unactivated or before activation; otherwise branch on damping vs natural
frequency, and clamp the branch value to ≥ 0 at the end. -/
def AccelerationStage.getCurrent (s : AccelerationStage) (time : ℝ) : ℝ :=
  if s.isActive = false then 0
  else
    match s.activationTime with
    | none => 0
    | some t0 =>
      if time < t0 then 0
      else
        let dt := time - t0
        let L := inductanceOf s.props
        let C := s.capacitance
        let R := s.props.resistance
        let omega0 := 1 / Real.sqrt (L * C)
        let alpha := R / (2 * L)
        let current :=
          if alpha < omega0 then
            let omegaD := Real.sqrt (omega0 ^ 2 - alpha ^ 2)
            (s.voltage / (omegaD * L)) * Real.exp (-alpha * dt) *
              Real.sin (omegaD * dt)
          else if alpha = omega0 then
            (s.voltage / L) * dt * Real.exp (-alpha * dt)
          else 0
        max 0 current

/-- Analytic dI/dt (AccelerationStage.get_current_derivative): same guards and
branches as get_current but no clamp is applied to the result. -/
def AccelerationStage.getCurrentDerivative (s : AccelerationStage) (time : ℝ) :
    ℝ :=
  if s.isActive = false then 0
  else
    match s.activationTime with
    | none => 0
    | some t0 =>
      if time < t0 then 0
      else
        let dt := time - t0
        let L := inductanceOf s.props
        let C := s.capacitance
        let R := s.props.resistance
        let omega0 := 1 / Real.sqrt (L * C)
        let alpha := R / (2 * L)
        if alpha < omega0 then
          let omegaD := Real.sqrt (omega0 ^ 2 - alpha ^ 2)
          let amplitude := s.voltage / (omegaD * L)
          let expTerm := Real.exp (-alpha * dt)
          let cosTerm := omegaD * Real.cos (omegaD * dt)
          let sinTerm := alpha * Real.sin (omegaD * dt)
          amplitude * expTerm * (cosTerm - sinTerm)
        else if alpha = omega0 then
          (s.voltage / L) * Real.exp (-alpha * dt) * (1 - alpha * dt)
        else 0

/-- Capacitor stored energy 0.5·C·V² (AccelerationStage.stored_energy). -/
def AccelerationStage.storedEnergy (s : AccelerationStage) : ℝ :=
  0.5 * s.capacitance * s.voltage ^ 2

/-- Stage reset (AccelerationStage.reset). -/
def AccelerationStage.resetStage (s : AccelerationStage) : AccelerationStage :=
  { s with isActive := false, activationTime := none, current := 0 }

/-- Near-field mutual inductance
(PhysicsEngine._calculate_overlapping_inductance):
M = μ₀·√(r₁r₂)·√(N₁N₂)·max(0, 1 − d/max(ℓ₁,ℓ₂)). -/
def overlappingInductance (p1 p2 : CoilProperties) (distance : ℝ) : ℝ :=
  let r1 := p1.diameter / 2
  let r2 := p2.diameter / 2
  let referenceLength := max p1.length p2.length
  let overlap := max 0 (1 - distance / referenceLength)
  mu0 * Real.sqrt (r1 * r2) *
    Real.sqrt ((p1.turns : ℝ) * (p2.turns : ℝ)) * overlap

/-- Far-field dipole mutual inductance
(PhysicsEngine._calculate_far_field_inductance):
M = μ₀·π·r₁²·r₂²·√(N₁N₂)/d³. -/
def farFieldInductance (p1 p2 : CoilProperties) (distance : ℝ) : ℝ :=
  let r1 := p1.diameter / 2
  let r2 := p2.diameter / 2
  mu0 * Real.pi * r1 ^ 2 * r2 ^ 2 *
    Real.sqrt ((p1.turns : ℝ) * (p2.turns : ℝ)) / distance ^ 3

/-- Branch selection of PhysicsEngine.calculate_mutual_inductance after the
negative-distance guard: near-field when distance < max(ℓ₁,ℓ₂), else
far-field. -/
def mutualInductanceRaw (p1 p2 : CoilProperties) (distance : ℝ) : ℝ :=
  if distance < max p1.length p2.length then
    overlappingInductance p1 p2 distance
  else
    farFieldInductance p1 p2 distance

/-- PhysicsEngine.calculate_mutual_inductance: rejects negative distance,
otherwise computes the branch value. -/
def calculateMutualInductance (p1 p2 : CoilProperties) (distance : ℝ) :
    Except String ℝ :=
  if distance < 0 then .error "Distance cannot be negative"
  else .ok (mutualInductanceRaw p1 p2 distance)

/-- Force branch of PhysicsEngine.calculate_force taken when both currents
are nonzero (the central-difference gradient with dx = 1 mm and the sign
inversion); total because both inductance evaluations are guarded by the
orchestrator's 1 mm distance floor. -/
def forceRaw (p1 p2 : CoilProperties) (distance current1 current2 : ℝ) : ℝ :=
  let dx : ℝ := 0.001
  let mPlus := mutualInductanceRaw p1 p2 (distance + dx / 2)
  let mMinus := mutualInductanceRaw p1 p2 (distance - dx / 2)
  let dmDx := (mPlus - mMinus) / dx
  let force := -current1 * current2 * dmDx
  force

/-- PhysicsEngine.calculate_force: returns 0 when either current is exactly
zero, otherwise the central-difference force, propagating the
negative-distance validation of calculate_mutual_inductance. -/
def calculateForce (p1 p2 : CoilProperties) (distance current1 current2 : ℝ) :
    Except String ℝ :=
  if current1 = 0 ∨ current2 = 0 then .ok 0
  else do
    let mPlus ← calculateMutualInductance p1 p2 (distance + 0.001 / 2)
    let mMinus ← calculateMutualInductance p1 p2 (distance - 0.001 / 2)
    .ok (-current1 * current2 * ((mPlus - mMinus) / 0.001))

/-- Verlet-style kinematics (PhysicsEngine.update_kinematics): the position
update reads the pre-update velocity, then the velocity is advanced. -/
def updateKinematics (c : Capsule) (force dt : ℝ) : Capsule :=
  let acceleration := force / c.mass
  let newPosition :=
    c.position + c.velocity * dt + 0.5 * acceleration * dt ^ 2
  let newVelocity := c.velocity + acceleration * dt
  (c.updatePosition newPosition).updateVelocity newVelocity

/-- Per-step snapshot (data_service.py, DataService.record). -/
structure SimRecord where
  time : ℝ
  position : ℝ
  velocity : ℝ
  acceleration : ℝ
  force : ℝ
  kineticEnergy : ℝ
  capsuleCurrent : ℝ
  activeStages : ℕ
  totalStageCurrent : ℝ

/-- Final result object (simulation_service.py, SimulationResult). -/
structure SimulationResult where
  finalVelocity : ℝ
  finalPosition : ℝ
  totalTime : ℝ
  initialEnergy : ℝ
  history : List SimRecord

/-- Orchestrator state (simulation_service.py, SimulationService): capsule,
stages, tube length, time step, elapsed time, the owned DataService state
(history plus the initial-energy metadata entry), and the capsule state
captured at construction for reset. -/
structure SimulationService where
  capsule : Capsule
  stages : List AccelerationStage
  tubeLength : ℝ
  dt : ℝ
  time : ℝ
  history : List SimRecord
  metaInitialEnergy : Option ℝ
  initPosition : ℝ
  initVelocity : ℝ
  initCurrent : ℝ

/-- Service constructor (SimulationService.__init__): time 0, empty data
service, initial capsule state stashed for reset. -/
def mkSimulationService (capsule : Capsule) (stages : List AccelerationStage)
    (tubeLength dt : ℝ) : SimulationService :=
  ⟨capsule, stages, tubeLength, dt, 0, [], none,
    capsule.position, capsule.velocity, capsule.current⟩

/-- Activation sweep (SimulationService._check_stage_activations): each
inactive stage within max(stage length, 1 cm) of the capsule is activated at
the current simulation time. -/
def checkStageActivations (s : SimulationService) : SimulationService :=
  { s with stages := s.stages.map (fun st =>
      if st.isActive = false ∧
          |s.capsule.position - st.props.position| ≤ max st.props.length 0.01
      then st.activate s.time
      else st) }

/-- Clamped central-difference gradient of mutual inductance
(SimulationService._calculate_mutual_inductance_gradient); both sample
distances are floored at 1 mm, so the validating inductance call never
fails and is embedded by its success branch. -/
def serviceGradient (s : SimulationService) (st : AccelerationStage)
    (distance : ℝ) : ℝ :=
  let dx : ℝ := 0.001
  let distPlus := max 0.001 (distance + dx / 2)
  let distMinus := max 0.001 (distance - dx / 2)
  let mPlus := mutualInductanceRaw st.props s.capsule.props distPlus
  let mMinus := mutualInductanceRaw st.props s.capsule.props distMinus
  (mPlus - mMinus) / dx

/-- Per-stage EMF contribution inside
SimulationService._update_capsule_current: transformer EMF M·dI/dt plus
motional EMF v·I·dM/dx for an active stage, 0 for an inactive one; the
stage-to-capsule distance is floored at 1 mm so the validating mutual
inductance call never fails. -/
def stageEmf (s : SimulationService) (st : AccelerationStage) : ℝ :=
  if st.isActive then
    let distance := max 0.001 |s.capsule.position - st.props.position|
    let stageCurrent := st.getCurrent s.time
    let m := mutualInductanceRaw st.props s.capsule.props distance
    let inducedEmf := m * st.getCurrentDerivative s.time
    let motionalEmf := s.capsule.velocity * stageCurrent *
      serviceGradient s st distance
    inducedEmf + motionalEmf
  else 0

/-- Current-induction update (SimulationService._update_capsule_current):
sums the active-stage EMFs, divides by the capsule resistance, and moves the
capsule current 10% of the way toward that target; the capsule current is
assigned directly, not through set_current. When the resistance is not
positive the current is left unchanged (the guard folded into the field). -/
def updateCapsuleCurrent (s : SimulationService) : SimulationService :=
  let totalInducedEmf := (s.stages.map (stageEmf s)).sum
  { s with capsule := { s.capsule with current :=
      if 0 < s.capsule.props.resistance then
        let inducedCurrent := totalInducedEmf / s.capsule.props.resistance
        s.capsule.current + 0.1 * (inducedCurrent - s.capsule.current)
      else s.capsule.current } }

/-- Per-stage force contribution inside
SimulationService._calculate_total_force: for an active stage whose current
exceeds 0.1 A while the capsule current exceeds 0.001 A, the electromagnetic
force at the 1 mm-floored distance (the two position_relative branches of the
source add the same value), plus the velocity-proportional drag applied in
the same guarded block when the speed exceeds 0.01 m/s. -/
def stageForce (s : SimulationService) (st : AccelerationStage) : ℝ :=
  if st.isActive then
    let stageCurrent := st.getCurrent s.time
    let distance := max 0.001 |s.capsule.position - st.props.position|
    if 0.1 < |stageCurrent| ∧ 0.001 < |s.capsule.current| then
      forceRaw st.props s.capsule.props distance stageCurrent
          s.capsule.current
        + (if 0.01 < |s.capsule.velocity| then -0.001 * s.capsule.velocity
           else 0)
    else 0
  else 0

/-- Total force (SimulationService._calculate_total_force). -/
def calculateTotalForce (s : SimulationService) : ℝ :=
  (s.stages.map (stageForce s)).sum

/-- Snapshot recording (DataService.record): derived kinetic energy,
acceleration, active-stage count and summed active-stage currents, appended
to the history. -/
def recordState (s : SimulationService) (force : ℝ) : SimulationService :=
  let kineticEnergy := 0.5 * s.capsule.mass * s.capsule.velocity ^ 2
  let acceleration := force / s.capsule.mass
  let actives := s.stages.filter (fun st => st.isActive)
  { s with history := s.history ++
      [⟨s.time, s.capsule.position, s.capsule.velocity, acceleration, force,
        kineticEnergy, s.capsule.current, actives.length,
        (actives.map (fun st => st.getCurrent s.time)).sum⟩] }

/-- Single simulation step (SimulationService._step): activation sweep,
current induction, force aggregation, Verlet kinematics, recording. -/
def stepSim (s : SimulationService) : SimulationService :=
  let s1 := checkStageActivations s
  let s2 := updateCapsuleCurrent s1
  let totalForce := calculateTotalForce s2
  let s3 := { s2 with capsule := updateKinematics s2.capsule totalForce s2.dt }
  recordState s3 totalForce

/-- Result generation (DataService.get_results): fails on an empty history,
otherwise reads the final record and the stored initial energy (defaulting
to 0 as metadata.get does). -/
def getResults (s : SimulationService) : Except String SimulationResult :=
  match s.history.getLast? with
  | none => .error "No data collected - cannot generate results"
  | some lastRecord =>
      .ok ⟨lastRecord.velocity, lastRecord.position, lastRecord.time,
        s.metaInitialEnergy.getD 0, s.history⟩

theorem stepSim_time (s : SimulationService) : (stepSim s).time = s.time := rfl

theorem stepSim_dt (s : SimulationService) : (stepSim s).dt = s.dt := rfl

theorem stepSim_tubeLength (s : SimulationService) :
    (stepSim s).tubeLength = s.tubeLength := rfl

/-- Main loop of SimulationService.run: while time < maxTime and
position < tubeLength, step and advance the time by dt. Totality (the
source loop's termination) holds because each iteration adds the fixed
positive dt to the time, strictly decreasing the number of steps remaining
until maxTime. -/
def runLoop (maxTime : ℝ) (s : SimulationService) (hdt : 0 < s.dt) :
    SimulationService :=
  if h : s.time < maxTime ∧ s.capsule.position < s.tubeLength then
    runLoop maxTime { stepSim s with time := s.time + s.dt }
      (by simpa [stepSim_dt] using hdt)
  else s
termination_by Nat.ceil ((maxTime - s.time) / s.dt)
decreasing_by
  have hx : (0:ℝ) < (maxTime - s.time) / s.dt := by
    exact div_pos (by linarith [h.1]) hdt
  have h1 : (1:ℕ) ≤ Nat.ceil ((maxTime - s.time) / s.dt) :=
    Nat.one_le_ceil_iff.mpr hx
  have h2 : (maxTime - (s.time + s.dt)) / s.dt = (maxTime - s.time) / s.dt - 1 := by
    rw [show maxTime - (s.time + s.dt) = maxTime - s.time - s.dt by ring,
      sub_div, div_self (ne_of_gt hdt)]
  rw [stepSim_dt, h2]
  have h3 : Nat.ceil ((maxTime - s.time) / s.dt - 1) ≤
      Nat.ceil ((maxTime - s.time) / s.dt) - 1 := by
    apply Nat.ceil_le.mpr
    push_cast [Nat.cast_sub h1]
    have := Nat.le_ceil ((maxTime - s.time) / s.dt)
    linarith
  omega

/-- State of the service when the loop of SimulationService.run exits (after
stashing the summed stage stored energy as initial energy). -/
def runFinalState (s : SimulationService) (maxTime : ℝ) (hdt : 0 < s.dt) :
    SimulationService :=
  runLoop maxTime
    { s with metaInitialEnergy := some ((s.stages.map (·.storedEnergy)).sum) }
    hdt

/-- SimulationService.run: stash the summed stage stored energy as initial
energy, run the loop, generate the results (which fails on an empty
history). -/
def runSim (s : SimulationService) (maxTime : ℝ) (hdt : 0 < s.dt) :
    Except String SimulationResult :=
  getResults (runFinalState s maxTime hdt)

/-- SimulationService.reset: zero the time, restore the stashed capsule
position/velocity/current by direct field assignment (the embedded
properties are not touched), deactivate all stages, clear the data
service. -/
def resetService (s : SimulationService) : SimulationService :=
  { s with
      time := 0,
      capsule := { s.capsule with
                    position := s.initPosition,
                    velocity := s.initVelocity,
                    current := s.initCurrent },
      stages := s.stages.map (fun st =>
        { st with isActive := false, activationTime := none }),
      history := [],
      metaInitialEnergy := none }

/-! Concrete fixtures used by witnesses and counterexamples. -/

/-- Unit coil geometry with zero resistance, a valid element for the
mutual inductance claims. -/
def unitProps : CoilProperties := ⟨1, 1, 1, 0, 0⟩

/-- Copper resistance of the unit stage geometry. -/
def R0 : ℝ := copperResistance 1 1 1

/-- Properties of the unit test stage. -/
def P0 : CoilProperties := ⟨1, 1, 1, R0, 0⟩

/-- Self-inductance of the unit test stage. -/
def L0 : ℝ := inductanceOf P0

/-- Capacitance of the underdamped test stage: L₀/R₀², chosen so that
ω₀ = R₀/L₀ and α = R₀/(2L₀) = ω₀/2 < ω₀. -/
def Cu : ℝ := L0 / R0 ^ 2

/-- Underdamped test stage: unit geometry, voltage 1, capacitance Cu,
activated at time 0. -/
def stageU : AccelerationStage := ⟨P0, 0, 0, Cu, 1, some 0, true⟩

/-- stageU is what the constructor followed by activate(0.0) produces. -/
theorem stageU_reachable :
    mkAccelerationStage 0 0 1 1 1 Cu 1 =
      .ok ⟨P0, 0, 0, Cu, 1, none, false⟩ ∧
    AccelerationStage.activate ⟨P0, 0, 0, Cu, 1, none, false⟩ 0 = stageU := by
  constructor
  · simp only [mkAccelerationStage, mkCoilProperties, Except.map]
    rw [if_neg (by norm_num : ¬ (1 : ℤ) ≤ 0),
      if_neg (by norm_num : ¬ (1 : ℝ) ≤ 0), if_neg (by norm_num : ¬ (1 : ℝ) ≤ 0)]
    rfl
  · rfl

/-- Properties of the unit test capsule. -/
def capsProps : CoilProperties := ⟨1, 1, 1, capsuleResistance 1 1, 0⟩

/-- Test capsule: mass 1, unit geometry, at rest at the origin. -/
def testCapsule : Capsule := ⟨capsProps, 0, 1, 0, 0⟩

theorem mkCapsule_eval : mkCapsule 1 1 1 = .ok testCapsule := by
  simp only [mkCapsule, mkCoilProperties, Except.map]
  rw [if_neg (by norm_num : ¬ (1 : ℝ) ≤ 0), if_neg (by norm_num : ¬ (1 : ℤ) ≤ 0),
    if_neg (by norm_num : ¬ (1 : ℝ) ≤ 0), if_neg (by norm_num : ¬ (1 : ℝ) ≤ 0)]
  rfl

theorem mu0_pos : 0 < mu0 := by
  unfold mu0
  positivity

theorem R0_pos : 0 < R0 := by
  unfold R0 copperResistance
  positivity

theorem L0_pos : 0 < L0 := by
  unfold L0 inductanceOf P0
  norm_num [mu0]
  positivity

/-! C5: Capsule.apply_force kinematics. -/

/-- C5 counterexample input: the claim predicts that apply_force(1, 1) on a
mass-1 capsule at rest at the origin leaves position
x₀ + v₀·dt + 0.5·(F/m)·dt² = 0.5; the code instead reads the just-updated
velocity in the position term and yields 1.5. -/
theorem C5_counterexample :
    (testCapsule.applyForce 1 1).position = 1.5 ∧ (1.5 : ℝ) ≠ 0.5 := by
  constructor
  · simp [Capsule.applyForce, Capsule.updatePosition, testCapsule]
    norm_num
  · norm_num

/-- C5 (amended): apply_force(F, dt) first sets velocity to v₀ + (F/m)·dt and
then sets position to x₀ + (v₀ + (F/m)·dt)·dt + 0.5·(F/m)·dt², i.e. the
position term reads the updated velocity plus the full quadratic term; the
embedded properties position is kept in sync. -/
theorem C5_applyForce_kinematics (c : Capsule) (F dt : ℝ) :
    (c.applyForce F dt).velocity = c.velocity + F / c.mass * dt ∧
    (c.applyForce F dt).position =
      c.position + (c.velocity + F / c.mass * dt) * dt +
        0.5 * (F / c.mass) * dt ^ 2 ∧
    (c.applyForce F dt).props.position = (c.applyForce F dt).position := by
  refine ⟨rfl, ?_, rfl⟩
  simp [Capsule.applyForce, Capsule.updatePosition]

/-! C6: symmetry of mutual inductance. -/

/-- C6: mutual inductance is exactly symmetric in its two elements, for every
distance (the two branch conditions, both branch formulas and the
negative-distance validation are all symmetric). -/
theorem C6_mutualInductance_symm (p1 p2 : CoilProperties) (d : ℝ) :
    calculateMutualInductance p1 p2 d = calculateMutualInductance p2 p1 d := by
  have hs1 : Real.sqrt (p2.diameter / 2 * (p1.diameter / 2)) =
      Real.sqrt (p1.diameter / 2 * (p2.diameter / 2)) := by rw [mul_comm]
  have hs2 : Real.sqrt ((p2.turns : ℝ) * (p1.turns : ℝ)) =
      Real.sqrt ((p1.turns : ℝ) * (p2.turns : ℝ)) := by rw [mul_comm]
  simp only [calculateMutualInductance, mutualInductanceRaw,
    overlappingInductance, farFieldInductance, hs1, hs2,
    max_comm p2.length p1.length]
  split_ifs with h1 h2
  · rfl
  · rfl
  · congr 1
    ring

/-! C4: AccelerationStage construction does not validate capacitance. -/

/-- C4 counterexample: constructing a stage with capacitance 0 (concretely,
AccelerationStage(0, 0.0, 1, 1.0, 1.0, 0.0, 400.0)) succeeds rather than
raising a validation error. -/
theorem C4_counterexample :
    mkAccelerationStage 0 0 1 1 1 0 400 =
      .ok ⟨⟨1, 1, 1, copperResistance 1 1 1, 0⟩, 0, 0, 0, 400, none, false⟩ := by
  simp only [mkAccelerationStage, mkCoilProperties, Except.map]
  rw [if_neg (by norm_num : ¬ (1 : ℤ) ≤ 0),
    if_neg (by norm_num : ¬ (1 : ℝ) ≤ 0), if_neg (by norm_num : ¬ (1 : ℝ) ≤ 0)]

/-- C4 (amended): the AccelerationStage constructor validates turns, diameter
and length (in that order), but never validates capacitance: for every
positive geometry, construction succeeds for any capacitance (including
non-positive ones) and stores it unchecked. -/
theorem C4_stage_construction (stageId : ℤ) (pos : ℝ) (turns : ℤ)
    (d l C V : ℝ) :
    (0 < turns → 0 < d → 0 < l →
      mkAccelerationStage stageId pos turns d l C V =
        .ok ⟨⟨turns, d, l, copperResistance turns d l, pos⟩, 0, stageId, C, V,
          none, false⟩) ∧
    (turns ≤ 0 →
      mkAccelerationStage stageId pos turns d l C V =
        .error "Turns must be positive") ∧
    (0 < turns → d ≤ 0 →
      mkAccelerationStage stageId pos turns d l C V =
        .error "Diameter must be positive") ∧
    (0 < turns → 0 < d → l ≤ 0 →
      mkAccelerationStage stageId pos turns d l C V =
        .error "Length must be positive") := by
  refine ⟨fun ht hd hl => ?_, fun ht => ?_, fun ht hd => ?_, fun ht hd hl => ?_⟩
  · simp only [mkAccelerationStage, mkCoilProperties, Except.map]
    rw [if_neg (not_le.mpr ht), if_neg (not_le.mpr hd), if_neg (not_le.mpr hl)]
  · simp only [mkAccelerationStage, mkCoilProperties, Except.map]
    rw [if_pos ht]
  · simp only [mkAccelerationStage, mkCoilProperties, Except.map]
    rw [if_neg (not_le.mpr ht), if_pos hd]
  · simp only [mkAccelerationStage, mkCoilProperties, Except.map]
    rw [if_neg (not_le.mpr ht), if_neg (not_le.mpr hd), if_pos hl]

/-- C4 witness: the amended theorem applied at a negative capacitance. -/
theorem C4_stage_construction_witness :
    mkAccelerationStage 0 0 1 1 1 (-1) 400 =
      .ok ⟨⟨1, 1, 1, copperResistance 1 1 1, 0⟩, 0, 0, -1, 400, none, false⟩ :=
  (C4_stage_construction 0 0 1 1 1 (-1) 400).1 (by norm_num) (by norm_num)
    (by norm_num)

/-! C3: position / embedded properties position agreement. -/

/-- Fresh service around the test capsule used for the C3 counterexample. -/
def svcC3 : SimulationService := mkSimulationService testCapsule [] 1 (1 / 100)

/-- C3 counterexample: construct a service with the capsule at position 0,
move the capsule with update_position(1.0) (which keeps the two position
fields in sync), then call the orchestrator reset: reset writes
capsule.position = 0 directly without touching the embedded properties, so
afterwards position = 0 while properties.position = 1. -/
theorem C3_counterexample :
    (resetService
        { svcC3 with capsule := svcC3.capsule.updatePosition 1 }).capsule.position ≠
      (resetService
        { svcC3 with capsule := svcC3.capsule.updatePosition 1 }).capsule.props.position := by
  simp only [resetService, svcC3, mkSimulationService, Capsule.updatePosition,
    testCapsule]
  norm_num

/-- C3 (amended): update_position and apply_force each leave the capsule
position equal to the embedded properties position, but the orchestrator
reset restores capsule.position to the stashed initial position while
leaving the embedded properties position untouched, so the two fields
diverge whenever the capsule has moved since service construction. -/
theorem C3_position_sync (c : Capsule) (x F dt : ℝ) (s : SimulationService) :
    (c.updatePosition x).position = (c.updatePosition x).props.position ∧
    (c.applyForce F dt).position = (c.applyForce F dt).props.position ∧
    (resetService s).capsule.position = s.initPosition ∧
    (resetService s).capsule.props.position = s.capsule.props.position :=
  ⟨rfl, rfl, rfl, rfl⟩

/-! C9 / C10: behaviour of the run loop. -/

theorem ceilSteps_lt (m t d : ℝ) (hd : 0 < d) (ht : t < m) :
    Nat.ceil ((m - (t + d)) / d) < Nat.ceil ((m - t) / d) := by
  have hx : (0 : ℝ) < (m - t) / d := div_pos (by linarith) hd
  have h1 : (1 : ℕ) ≤ Nat.ceil ((m - t) / d) := Nat.one_le_ceil_iff.mpr hx
  have h2 : (m - (t + d)) / d = (m - t) / d - 1 := by
    rw [show m - (t + d) = m - t - d by ring, sub_div, div_self (ne_of_gt hd)]
  rw [h2]
  have h3 : Nat.ceil ((m - t) / d - 1) ≤ Nat.ceil ((m - t) / d) - 1 := by
    apply Nat.ceil_le.mpr
    push_cast [Nat.cast_sub h1]
    have h4 := Nat.le_ceil ((m - t) / d)
    linarith
  omega

/-- The loop guard fails at the state in which runLoop returns. -/
theorem runLoop_exit (maxTime : ℝ) :
    ∀ (n : ℕ) (s : SimulationService) (hdt : 0 < s.dt),
      Nat.ceil ((maxTime - s.time) / s.dt) ≤ n →
      ¬ ((runLoop maxTime s hdt).time < maxTime ∧
         (runLoop maxTime s hdt).capsule.position <
           (runLoop maxTime s hdt).tubeLength) := by
  intro n
  induction n with
  | zero =>
    intro s hdt hn
    rw [runLoop]
    split_ifs with h
    · exfalso
      have hx : (0 : ℝ) < (maxTime - s.time) / s.dt :=
        div_pos (by linarith [h.1]) hdt
      have h1 : (1 : ℕ) ≤ Nat.ceil ((maxTime - s.time) / s.dt) :=
        Nat.one_le_ceil_iff.mpr hx
      omega
    · exact h
  | succ n ih =>
    intro s hdt hn
    rw [runLoop]
    split_ifs with h
    · apply ih
      have hlt := ceilSteps_lt maxTime s.time s.dt hdt h.1
      have hdtstep : ({ stepSim s with time := s.time + s.dt } :
          SimulationService).dt = s.dt := stepSim_dt s
      have htstep : ({ stepSim s with time := s.time + s.dt } :
          SimulationService).time = s.time + s.dt := rfl
      rw [hdtstep, htstep]
      omega
    · exact h

/-- C9 (amended): for every service with positive dt, run terminates (runLoop
is a total function on such services) and on exit the elapsed time is ≥
maxTime or the capsule position is ≥ tubeLength: the negation of the loop
guard. The original inequality elapsedTime ≤ maxTime can fail because the
final time increment may overshoot maxTime by up to one time step. -/
theorem C9_run_exit (s : SimulationService) (maxTime : ℝ) (hdt : 0 < s.dt) :
    maxTime ≤ (runFinalState s maxTime hdt).time ∨
      (runFinalState s maxTime hdt).tubeLength ≤
        (runFinalState s maxTime hdt).capsule.position := by
  unfold runFinalState
  set s0 : SimulationService :=
    { s with metaInitialEnergy := some ((s.stages.map (·.storedEnergy)).sum) }
    with hs0
  have h := runLoop_exit maxTime (Nat.ceil ((maxTime - s0.time) / s0.dt)) s0
    hdt le_rfl
  rcases not_and_or.mp h with h | h
  · exact Or.inl (not_lt.mp h)
  · exact Or.inr (not_lt.mp h)

/-- Service used by the C9 witness. -/
def svcA : SimulationService := mkSimulationService testCapsule [] 1 1

theorem svcA_dt : 0 < svcA.dt := by norm_num [svcA, mkSimulationService]

/-- C9 witness: the amended exit property at a concrete service and
maxTime 0. -/
theorem C9_run_exit_witness :
    (0 : ℝ) ≤ (runFinalState svcA 0 svcA_dt).time ∨
      (runFinalState svcA 0 svcA_dt).tubeLength ≤
        (runFinalState svcA 0 svcA_dt).capsule.position :=
  C9_run_exit svcA 0 svcA_dt

/-- Service used by the C9 counterexample: no stages, tube length 100,
dt = 2. -/
def svcB : SimulationService := mkSimulationService testCapsule [] 100 2

theorem svcB_dt : 0 < svcB.dt := by norm_num [svcB, mkSimulationService]

/-- Loop entry state of run on svcB. -/
def svcB0 : SimulationService :=
  { svcB with metaInitialEnergy := some ((svcB.stages.map (·.storedEnergy)).sum) }

/-- C9 counterexample: with dt = 2 and maxTime = 1, the single loop iteration
leaves the elapsed time at 2 > maxTime while the capsule (no stages, no
force) stays at position 0 < tubeLength = 100: neither elapsedTime ≤ maxTime
nor position ≥ tubeLength holds on exit. -/
theorem C9_counterexample :
    ¬ ((runFinalState svcB 1 svcB_dt).time ≤ 1 ∨
       (runFinalState svcB 1 svcB_dt).tubeLength ≤
         (runFinalState svcB 1 svcB_dt).capsule.position) := by
  have key : runFinalState svcB 1 svcB_dt =
      { stepSim svcB0 with time := svcB0.time + svcB0.dt } := by
    show runLoop 1 svcB0 svcB_dt = _
    rw [runLoop, dif_pos (⟨show (0 : ℝ) < 1 by norm_num,
      show (0 : ℝ) < 100 by norm_num⟩ :
        svcB0.time < 1 ∧ svcB0.capsule.position < svcB0.tubeLength)]
    rw [runLoop, dif_neg]
    intro hc
    have h2 : svcB0.time + svcB0.dt < 1 := hc.1
    have h3 : (0 : ℝ) + 2 < 1 := h2
    norm_num at h3
  rw [key]
  rintro (h | h)
  · have h2 : (0 : ℝ) + 2 ≤ 1 := h
    norm_num at h2
  · have h2 : (100 : ℝ) ≤ 0 + 0 * 2 + 0.5 * ((List.map (stageForce
        (updateCapsuleCurrent (checkStageActivations svcB0))) []).sum / 1) * 2 ^ 2 := h
    simp at h2
    norm_num at h2

/-- C10: a run whose loop body never executes (maxTime ≤ 0, or the capsule
already at or past the tube end) leaves the history empty, and result
generation fails with the empty-state error instead of returning a result. -/
theorem C10_empty_run_error (c : Capsule) (stages : List AccelerationStage)
    (tubeLength dt maxTime : ℝ) (hdt : 0 < dt)
    (h : maxTime ≤ 0 ∨ tubeLength ≤ c.position) :
    runSim (mkSimulationService c stages tubeLength dt) maxTime hdt =
      .error "No data collected - cannot generate results" := by
  unfold runSim runFinalState getResults
  rw [runLoop, dif_neg]
  · rfl
  · rintro ⟨h1, h2⟩
    rcases h with h | h
    · have h3 : (0 : ℝ) < maxTime := h1
      linarith
    · have h4 : c.position < tubeLength := h2
      linarith

/-- C10 witness: a concrete fresh service run with maxTime = 0 errors. -/
theorem C10_empty_run_error_witness :
    runSim (mkSimulationService testCapsule [] 1 1) 0 one_pos =
      .error "No data collected - cannot generate results" :=
  C10_empty_run_error testCapsule [] 1 1 0 one_pos (Or.inl le_rfl)

/-! RLC analysis of the underdamped test stage. -/

theorem sqrtLC_eval : Real.sqrt (L0 * Cu) = L0 / R0 := by
  have h : L0 * Cu = (L0 / R0) ^ 2 := by
    unfold Cu
    field_simp
    ring
  rw [h, Real.sqrt_sq (le_of_lt (div_pos L0_pos R0_pos))]

theorem omega0U_eval : 1 / Real.sqrt (L0 * Cu) = R0 / L0 := by
  rw [sqrtLC_eval, one_div_div]

theorem alphaU_lt_omega0U : R0 / (2 * L0) < 1 / Real.sqrt (L0 * Cu) := by
  rw [omega0U_eval]
  apply div_lt_div_of_pos_left R0_pos L0_pos
  linarith [L0_pos]

/-- Damped frequency of the underdamped test stage: √3/2 · (R₀/L₀). -/
def omegaDU : ℝ := Real.sqrt 3 / 2 * (R0 / L0)

theorem sqrt_three_pos : 0 < Real.sqrt 3 := Real.sqrt_pos.mpr (by norm_num)

theorem one_lt_sqrt_three : 1 < Real.sqrt 3 := by
  have h := Real.sqrt_lt_sqrt (by norm_num : (0:ℝ) ≤ 1) (by norm_num : (1:ℝ) < 3)
  rwa [Real.sqrt_one] at h

theorem omegaDU_pos : 0 < omegaDU :=
  mul_pos (div_pos sqrt_three_pos (by norm_num)) (div_pos R0_pos L0_pos)

theorem omegaDU_eval :
    Real.sqrt ((1 / Real.sqrt (L0 * Cu)) ^ 2 - (R0 / (2 * L0)) ^ 2) =
      omegaDU := by
  rw [omega0U_eval]
  have h : (R0 / L0) ^ 2 - (R0 / (2 * L0)) ^ 2 = omegaDU ^ 2 := by
    unfold omegaDU
    rw [mul_pow, show (Real.sqrt 3 / 2) ^ 2 = 3 / 4 by
      rw [div_pow, Real.sq_sqrt (by norm_num : (0:ℝ) ≤ 3)]; norm_num]
    field_simp
    ring
  rw [h, Real.sqrt_sq (le_of_lt omegaDU_pos)]

theorem alphaU_lt_omegaDU : R0 / (2 * L0) < omegaDU := by
  unfold omegaDU
  rw [show R0 / (2 * L0) = 1 / 2 * (R0 / L0) by ring]
  exact mul_lt_mul_of_pos_right
    (by nlinarith [one_lt_sqrt_three]) (div_pos R0_pos L0_pos)

/-- Current of the underdamped test stage at any time after activation. -/
theorem stageU_getCurrent_eval (t : ℝ) (ht : 0 ≤ t) :
    stageU.getCurrent t =
      max 0 (1 / (omegaDU * L0) * Real.exp (-(R0 / (2 * L0)) * t) *
        Real.sin (omegaDU * t)) := by
  have h1 : stageU.isActive = true := rfl
  have h2 : stageU.activationTime = some 0 := rfl
  have h3 : inductanceOf stageU.props = L0 := rfl
  have h4 : stageU.props.resistance = R0 := rfl
  have h5 : stageU.capacitance = Cu := rfl
  have h6 : stageU.voltage = 1 := rfl
  unfold AccelerationStage.getCurrent
  simp only [h1, h2, h3, h4, h5, h6, Bool.true_eq_false, if_false, sub_zero]
  rw [if_neg (not_lt.mpr ht), if_pos alphaU_lt_omega0U, omegaDU_eval]

/-- Current derivative of the underdamped test stage at any time after
activation. -/
theorem stageU_getCurrentDerivative_eval (t : ℝ) (ht : 0 ≤ t) :
    stageU.getCurrentDerivative t =
      1 / (omegaDU * L0) * Real.exp (-(R0 / (2 * L0)) * t) *
        (omegaDU * Real.cos (omegaDU * t) -
          R0 / (2 * L0) * Real.sin (omegaDU * t)) := by
  have h1 : stageU.isActive = true := rfl
  have h2 : stageU.activationTime = some 0 := rfl
  have h3 : inductanceOf stageU.props = L0 := rfl
  have h4 : stageU.props.resistance = R0 := rfl
  have h5 : stageU.capacitance = Cu := rfl
  have h6 : stageU.voltage = 1 := rfl
  unfold AccelerationStage.getCurrentDerivative
  simp only [h1, h2, h3, h4, h5, h6, Bool.true_eq_false, if_false, sub_zero]
  rw [if_neg (not_lt.mpr ht), if_pos alphaU_lt_omega0U, omegaDU_eval]

/-! C2: the capsule current invariant. -/

/-- The near-field mutual inductance between the test stage and the test
capsule at the orchestrator's floored distance of 1 mm is positive. -/
theorem M_pos : 0 < mutualInductanceRaw P0 capsProps 0.001 := by
  unfold mutualInductanceRaw
  rw [if_pos (show (0.001 : ℝ) < max P0.length capsProps.length by
    norm_num [P0, capsProps])]
  unfold overlappingInductance
  apply mul_pos (mul_pos (mul_pos mu0_pos ?_) ?_) ?_
  · exact Real.sqrt_pos.mpr (by norm_num [P0, capsProps])
  · exact Real.sqrt_pos.mpr (by norm_num [P0, capsProps])
  · rw [show max P0.length capsProps.length = (1:ℝ) by norm_num [P0, capsProps]]
    norm_num [max_def]

theorem Rcap_pos : 0 < capsuleResistance 1 1 := by
  unfold capsuleResistance
  positivity

/-- Capacitance of the weakly damped test stage: L₀/(400·R₀²), so that
ω₀ = 20·R₀/L₀ = 40α and the current decays little over a half period. -/
def C20 : ℝ := L0 / (400 * R0 ^ 2)

/-- Weakly damped test stage as constructed (inactive). -/
def stage20 : AccelerationStage := ⟨P0, 0, 0, C20, 1, none, false⟩

/-- The same stage after activate(0.0), as the first simulation step
produces it. -/
def stage20A : AccelerationStage := ⟨P0, 0, 0, C20, 1, some 0, true⟩

/-- stage20 is what the stage constructor produces. -/
theorem stage20_reachable :
    mkAccelerationStage 0 0 1 1 1 C20 1 = .ok stage20 := by
  simp only [mkAccelerationStage, mkCoilProperties, Except.map]
  rw [if_neg (by norm_num : ¬ (1 : ℤ) ≤ 0),
    if_neg (by norm_num : ¬ (1 : ℝ) ≤ 0), if_neg (by norm_num : ¬ (1 : ℝ) ≤ 0)]
  rfl

theorem sqrtLC20_eval : Real.sqrt (L0 * C20) = L0 / (20 * R0) := by
  have h : L0 * C20 = (L0 / (20 * R0)) ^ 2 := by
    unfold C20
    field_simp
    ring
  rw [h, Real.sqrt_sq
    (le_of_lt (div_pos L0_pos (mul_pos (by norm_num) R0_pos)))]

theorem omega020_eval : 1 / Real.sqrt (L0 * C20) = 20 * R0 / L0 := by
  rw [sqrtLC20_eval, one_div_div]

theorem alpha20_lt_omega020 : R0 / (2 * L0) < 1 / Real.sqrt (L0 * C20) := by
  rw [omega020_eval, show (20:ℝ) * R0 / L0 = 40 * (R0 / (2 * L0)) by ring]
  have h := div_pos R0_pos (mul_pos (by norm_num : (0:ℝ) < 2) L0_pos)
  linarith

theorem sqrt1599_pos : 0 < Real.sqrt 1599 := Real.sqrt_pos.mpr (by norm_num)

/-- Damped frequency of the weakly damped test stage:
√1599/2 · (R₀/L₀). -/
def omegaD20 : ℝ := Real.sqrt 1599 / 2 * (R0 / L0)

theorem omegaD20_pos : 0 < omegaD20 :=
  mul_pos (div_pos sqrt1599_pos (by norm_num)) (div_pos R0_pos L0_pos)

theorem omegaD20_eval :
    Real.sqrt ((1 / Real.sqrt (L0 * C20)) ^ 2 - (R0 / (2 * L0)) ^ 2) =
      omegaD20 := by
  rw [omega020_eval]
  have h : (20 * R0 / L0) ^ 2 - (R0 / (2 * L0)) ^ 2 = omegaD20 ^ 2 := by
    unfold omegaD20
    rw [mul_pow, show (Real.sqrt 1599 / 2) ^ 2 = 1599 / 4 by
      rw [div_pow, Real.sq_sqrt (by norm_num : (0:ℝ) ≤ 1599)]; norm_num]
    field_simp
    ring
  rw [h, Real.sqrt_sq (le_of_lt omegaD20_pos)]

/-- Time step of the counterexample run: half an oscillation period. -/
def dt20 : ℝ := Real.pi / omegaD20

theorem dt20_pos : 0 < dt20 := div_pos Real.pi_pos omegaD20_pos

theorem omegaD20_dt20 : omegaD20 * dt20 = Real.pi := by
  unfold dt20
  rw [mul_comm, div_mul_cancel₀ _ (ne_of_gt omegaD20_pos)]

theorem R0_eval : R0 = 1.68e-8 / ((1.628e-3 / 2) ^ 2) := by
  unfold R0 copperResistance
  have hπ : Real.pi ≠ 0 := Real.pi_ne_zero
  push_cast
  field_simp
  ring

theorem L0_eval : L0 = Real.pi ^ 2 * 1e-7 := by
  unfold L0 inductanceOf P0 mu0
  push_cast
  ring

theorem dt20_lt_one : dt20 < 1 := by
  unfold dt20
  rw [div_lt_one omegaD20_pos]
  have h1599 : (31.5:ℝ) < Real.sqrt 1599 := by
    rw [show (31.5:ℝ) = Real.sqrt (31.5 ^ 2) from
      (Real.sqrt_sq (by norm_num)).symm]
    exact Real.sqrt_lt_sqrt (by norm_num) (by norm_num)
  have hRL : (1:ℝ) < R0 / L0 := by
    have hL : L0 < 1e-6 := by
      rw [L0_eval]
      nlinarith [Real.pi_lt_315, Real.pi_pos]
    have hR : (0.025:ℝ) < R0 := by
      rw [R0_eval]
      norm_num
    rw [lt_div_iff L0_pos, one_mul]
    linarith
  unfold omegaD20
  have h2 : (15.75:ℝ) < Real.sqrt 1599 / 2 := by linarith
  calc Real.pi < 3.15 := Real.pi_lt_315
    _ = 3.15 * 1 := by norm_num
    _ < Real.sqrt 1599 / 2 * (R0 / L0) := by
        apply mul_lt_mul (by linarith) (le_of_lt hRL) one_pos
          (by positivity)

/-- Current of the weakly damped stage at any time after activation. -/
theorem stage20A_getCurrent_eval (t : ℝ) (ht : 0 ≤ t) :
    stage20A.getCurrent t =
      max 0 (1 / (omegaD20 * L0) * Real.exp (-(R0 / (2 * L0)) * t) *
        Real.sin (omegaD20 * t)) := by
  have h1 : stage20A.isActive = true := rfl
  have h2 : stage20A.activationTime = some 0 := rfl
  have h3 : inductanceOf stage20A.props = L0 := rfl
  have h4 : stage20A.props.resistance = R0 := rfl
  have h5 : stage20A.capacitance = C20 := rfl
  have h6 : stage20A.voltage = 1 := rfl
  unfold AccelerationStage.getCurrent
  simp only [h1, h2, h3, h4, h5, h6, Bool.true_eq_false, if_false, sub_zero]
  rw [if_neg (not_lt.mpr ht), if_pos alpha20_lt_omega020, omegaD20_eval]

/-- Current derivative of the weakly damped stage at any time after
activation. -/
theorem stage20A_getCurrentDerivative_eval (t : ℝ) (ht : 0 ≤ t) :
    stage20A.getCurrentDerivative t =
      1 / (omegaD20 * L0) * Real.exp (-(R0 / (2 * L0)) * t) *
        (omegaD20 * Real.cos (omegaD20 * t) -
          R0 / (2 * L0) * Real.sin (omegaD20 * t)) := by
  have h1 : stage20A.isActive = true := rfl
  have h2 : stage20A.activationTime = some 0 := rfl
  have h3 : inductanceOf stage20A.props = L0 := rfl
  have h4 : stage20A.props.resistance = R0 := rfl
  have h5 : stage20A.capacitance = C20 := rfl
  have h6 : stage20A.voltage = 1 := rfl
  unfold AccelerationStage.getCurrentDerivative
  simp only [h1, h2, h3, h4, h5, h6, Bool.true_eq_false, if_false, sub_zero]
  rw [if_neg (not_lt.mpr ht), if_pos alpha20_lt_omega020, omegaD20_eval]

theorem I20_zero_eval : stage20A.getCurrent 0 = 0 := by
  rw [stage20A_getCurrent_eval 0 le_rfl]
  simp

theorem D20_zero_eval : stage20A.getCurrentDerivative 0 = 1 / L0 := by
  have hω : omegaD20 ≠ 0 := ne_of_gt omegaD20_pos
  have hL : L0 ≠ 0 := ne_of_gt L0_pos
  rw [stage20A_getCurrentDerivative_eval 0 le_rfl]
  simp only [mul_zero, neg_zero, Real.exp_zero, Real.cos_zero, Real.sin_zero]
  field_simp

theorem D20_dt20_eval : stage20A.getCurrentDerivative dt20 =
    -(Real.exp (-(R0 / (2 * L0)) * dt20) / L0) := by
  have hω : omegaD20 ≠ 0 := ne_of_gt omegaD20_pos
  have hL : L0 ≠ 0 := ne_of_gt L0_pos
  rw [stage20A_getCurrentDerivative_eval dt20 (le_of_lt dt20_pos),
    omegaD20_dt20, Real.cos_pi, Real.sin_pi]
  field_simp
  ring

/-- Over the half period the current envelope decays by less than 10%:
exp(−α·π/ω_d) = exp(−π/√1599) > 0.9. -/
theorem exp_decay_bound : (0.9:ℝ) < Real.exp (-(R0 / (2 * L0)) * dt20) := by
  have hω : omegaD20 ≠ 0 := ne_of_gt omegaD20_pos
  have hL : L0 ≠ 0 := ne_of_gt L0_pos
  have hR : R0 ≠ 0 := ne_of_gt R0_pos
  have hs : Real.sqrt 1599 ≠ 0 := ne_of_gt sqrt1599_pos
  have hx : R0 / (2 * L0) * dt20 = Real.pi / Real.sqrt 1599 := by
    unfold dt20 omegaD20
    field_simp
    ring
  have h1599 : (31.5:ℝ) < Real.sqrt 1599 := by
    rw [show (31.5:ℝ) = Real.sqrt (31.5 ^ 2) from
      (Real.sqrt_sq (by norm_num)).symm]
    exact Real.sqrt_lt_sqrt (by norm_num) (by norm_num)
  have hxlt : Real.pi / Real.sqrt 1599 < 0.1 := by
    rw [div_lt_iff sqrt1599_pos]
    nlinarith [Real.pi_lt_315]
  have hxpos : 0 < Real.pi / Real.sqrt 1599 :=
    div_pos Real.pi_pos sqrt1599_pos
  have hexp := Real.add_one_le_exp (-(Real.pi / Real.sqrt 1599))
  rw [neg_mul, hx]
  linarith

/-- Fresh service of the counterexample run: test capsule at the stage
position, one weakly damped stage, tube length 1, time step π/ω_d. -/
def svc20 : SimulationService := mkSimulationService testCapsule [stage20] 1 dt20

/-- The state entering the first loop iteration of run on svc20 (after the
initial-energy stash). -/
def svc20R : SimulationService :=
  { svc20 with metaInitialEnergy := some ((svc20.stages.map (·.storedEnergy)).sum) }

/-- The capsule current after the first simulation step. -/
def c1v : ℝ :=
  0.1 * (mutualInductanceRaw P0 capsProps 0.001 * (1 / L0) /
    capsuleResistance 1 1)

/-- Unfolded form of stageEmf (pure let-expansion of the definition). -/
theorem stageEmf_eval (s : SimulationService) (st : AccelerationStage) :
    stageEmf s st =
      if st.isActive then
        mutualInductanceRaw st.props s.capsule.props
            (max 0.001 |s.capsule.position - st.props.position|) *
          st.getCurrentDerivative s.time +
        s.capsule.velocity * st.getCurrent s.time *
          serviceGradient s st
            (max 0.001 |s.capsule.position - st.props.position|)
      else 0 := rfl

/-- Unfolded form of stageForce (pure let-expansion of the definition). -/
theorem stageForce_eval (s : SimulationService) (st : AccelerationStage) :
    stageForce s st =
      if st.isActive then
        if 0.1 < |st.getCurrent s.time| ∧ 0.001 < |s.capsule.current| then
          forceRaw st.props s.capsule.props
              (max 0.001 |s.capsule.position - st.props.position|)
              (st.getCurrent s.time) s.capsule.current +
            (if 0.01 < |s.capsule.velocity| then -0.001 * s.capsule.velocity
             else 0)
        else 0
      else 0 := rfl

/-- Unfolded form of the current field written by updateCapsuleCurrent. -/
theorem updateCapsuleCurrent_current (s : SimulationService) :
    (updateCapsuleCurrent s).capsule.current =
      if 0 < s.capsule.props.resistance then
        s.capsule.current +
          0.1 * ((s.stages.map (stageEmf s)).sum / s.capsule.props.resistance -
            s.capsule.current)
      else s.capsule.current := rfl

/-- The first step activates the stage at time 0. -/
theorem svc20R_activation :
    checkStageActivations svc20R = { svc20R with stages := [stage20A] } := by
  unfold checkStageActivations
  congr 1
  show List.map _ [stage20] = [stage20A]
  simp only [List.map_cons, List.map_nil]
  rw [if_pos ⟨rfl, show |(0:ℝ) - 0| ≤ max 1 0.01 by norm_num [max_def]⟩]
  rfl

/-- EMF seen by the capsule in the first step (time 0): M·(dI/dt)(0). -/
theorem step1_emf :
    stageEmf { svc20R with stages := [stage20A] } stage20A =
      mutualInductanceRaw P0 capsProps 0.001 * (1 / L0) := by
  rw [stageEmf_eval]
  rw [if_pos (show stage20A.isActive = true from rfl)]
  rw [show ({ svc20R with stages := [stage20A] } :
        SimulationService).capsule.position = (0:ℝ) from rfl,
      show ({ svc20R with stages := [stage20A] } :
        SimulationService).capsule.velocity = (0:ℝ) from rfl,
      show ({ svc20R with stages := [stage20A] } :
        SimulationService).capsule.props = capsProps from rfl,
      show ({ svc20R with stages := [stage20A] } :
        SimulationService).time = (0:ℝ) from rfl,
      show stage20A.props = P0 from rfl]
  rw [show max 0.001 |(0:ℝ) - P0.position| = (0.001:ℝ) from by
    norm_num [P0, max_def]]
  rw [zero_mul, zero_mul, add_zero, D20_zero_eval]

/-- The first current update stores c1v in the capsule. -/
theorem step1_current :
    (updateCapsuleCurrent (checkStageActivations svc20R)).capsule.current =
      c1v := by
  rw [svc20R_activation, updateCapsuleCurrent_current]
  rw [show ({ svc20R with stages := [stage20A] } :
        SimulationService).capsule.props.resistance = capsuleResistance 1 1
        from rfl,
      show ({ svc20R with stages := [stage20A] } :
        SimulationService).capsule.current = (0:ℝ) from rfl,
      show ({ svc20R with stages := [stage20A] } :
        SimulationService).stages = [stage20A] from rfl]
  simp only [List.map_cons, List.map_nil, List.sum_cons, List.sum_nil,
    add_zero, step1_emf]
  rw [if_pos Rcap_pos]
  unfold c1v
  ring

/-- No force acts during the first step: the stage current at time 0 is 0,
below the 0.1 A threshold. -/
theorem step1_force :
    calculateTotalForce (updateCapsuleCurrent (checkStageActivations svc20R)) =
      0 := by
  rw [svc20R_activation]
  unfold calculateTotalForce
  rw [show (updateCapsuleCurrent { svc20R with stages := [stage20A] }).stages =
      [stage20A] from rfl]
  simp only [List.map_cons, List.map_nil, List.sum_cons, List.sum_nil,
    add_zero]
  rw [stageForce_eval]
  rw [if_pos (show stage20A.isActive = true from rfl)]
  rw [show (updateCapsuleCurrent { svc20R with stages := [stage20A] }).time =
      (0:ℝ) from rfl]
  rw [I20_zero_eval]
  rw [if_neg (fun hc => absurd hc.1 (by rw [abs_zero]; norm_num))]

/-- The capsule after the first simulation step: still at rest at the
origin, with induced current c1v. -/
theorem step1_capsule :
    (stepSim svc20R).capsule = ⟨capsProps, c1v, 1, 0, 0⟩ := by
  show updateKinematics
      (updateCapsuleCurrent (checkStageActivations svc20R)).capsule
      (calculateTotalForce (updateCapsuleCurrent (checkStageActivations svc20R)))
      (updateCapsuleCurrent (checkStageActivations svc20R)).dt = _
  rw [step1_force]
  have hc : (updateCapsuleCurrent (checkStageActivations svc20R)).capsule =
      ⟨capsProps, c1v, 1, 0, 0⟩ := by
    calc (updateCapsuleCurrent (checkStageActivations svc20R)).capsule =
        ⟨(updateCapsuleCurrent (checkStageActivations svc20R)).capsule.props,
         (updateCapsuleCurrent (checkStageActivations svc20R)).capsule.current,
         (updateCapsuleCurrent (checkStageActivations svc20R)).capsule.mass,
         (updateCapsuleCurrent (checkStageActivations svc20R)).capsule.position,
         (updateCapsuleCurrent (checkStageActivations svc20R)).capsule.velocity⟩ :=
        rfl
      _ = ⟨capsProps, c1v, 1, 0, 0⟩ := by
        rw [step1_current,
          show (updateCapsuleCurrent (checkStageActivations svc20R)).capsule.props =
            capsProps from rfl,
          show (updateCapsuleCurrent (checkStageActivations svc20R)).capsule.mass =
            (1:ℝ) from rfl,
          show (updateCapsuleCurrent (checkStageActivations svc20R)).capsule.position =
            (0:ℝ) from rfl,
          show (updateCapsuleCurrent (checkStageActivations svc20R)).capsule.velocity =
            (0:ℝ) from rfl]
  rw [hc]
  unfold updateKinematics Capsule.updatePosition Capsule.updateVelocity
  norm_num [Capsule.mk.injEq, CoilProperties.mk.injEq, capsProps]

/-- The stages after the first simulation step. -/
theorem step1_stages : (stepSim svc20R).stages = [stage20A] := by
  have h : (stepSim svc20R).stages = (checkStageActivations svc20R).stages :=
    rfl
  rw [h, svc20R_activation]

/-- The state entering the second loop iteration of run on svc20. -/
def svc20S1 : SimulationService :=
  { stepSim svc20R with time := svc20R.time + svc20R.dt }

/-- The second current update drives the capsule current negative. -/
theorem run2_current_neg : (stepSim svc20S1).capsule.current < 0 := by
  have hcap : svc20S1.capsule = ⟨capsProps, c1v, 1, 0, 0⟩ := step1_capsule
  have hst : svc20S1.stages = [stage20A] := step1_stages
  have ht : svc20S1.time = dt20 := by
    show svc20R.time + svc20R.dt = dt20
    show (0:ℝ) + dt20 = dt20
    rw [zero_add]
  have hred : (stepSim svc20S1).capsule.current =
      (updateCapsuleCurrent (checkStageActivations svc20S1)).capsule.current :=
    rfl
  have hch2 : checkStageActivations svc20S1 =
      { svc20S1 with stages := [stage20A] } := by
    unfold checkStageActivations
    congr 1
    rw [hst]
    simp only [List.map_cons, List.map_nil]
    rw [if_neg (fun hc => absurd hc.1 (by simp [stage20A]))]
  have hemf2 : stageEmf { svc20S1 with stages := [stage20A] } stage20A =
      mutualInductanceRaw P0 capsProps 0.001 *
        -(Real.exp (-(R0 / (2 * L0)) * dt20) / L0) := by
    rw [stageEmf_eval]
    rw [if_pos (show stage20A.isActive = true from rfl)]
    rw [show ({ svc20S1 with stages := [stage20A] } :
        SimulationService).time = svc20S1.time from rfl, ht]
    rw [show ({ svc20S1 with stages := [stage20A] } :
        SimulationService).capsule = svc20S1.capsule from rfl, hcap]
    rw [show (⟨capsProps, c1v, 1, 0, 0⟩ : Capsule).position = (0:ℝ) from rfl,
      show (⟨capsProps, c1v, 1, 0, 0⟩ : Capsule).velocity = (0:ℝ) from rfl,
      show (⟨capsProps, c1v, 1, 0, 0⟩ : Capsule).props = capsProps from rfl,
      show stage20A.props = P0 from rfl]
    rw [show max 0.001 |(0:ℝ) - P0.position| = (0.001:ℝ) from by
      norm_num [P0, max_def]]
    rw [zero_mul, zero_mul, add_zero, D20_dt20_eval]
  rw [hred, hch2, updateCapsuleCurrent_current]
  rw [show ({ svc20S1 with stages := [stage20A] } :
      SimulationService).stages = [stage20A] from rfl]
  rw [show ({ svc20S1 with stages := [stage20A] } :
      SimulationService).capsule = svc20S1.capsule from rfl, hcap]
  rw [show (⟨capsProps, c1v, 1, 0, 0⟩ : Capsule).props.resistance =
      capsuleResistance 1 1 from rfl,
    show (⟨capsProps, c1v, 1, 0, 0⟩ : Capsule).current = c1v from rfl]
  simp only [List.map_cons, List.map_nil, List.sum_cons, List.sum_nil,
    add_zero, hemf2]
  rw [if_pos Rcap_pos]
  unfold c1v
  have hA : 0 < mutualInductanceRaw P0 capsProps 0.001 * (1 / L0) /
      capsuleResistance 1 1 :=
    div_pos (mul_pos M_pos (one_div_pos.mpr L0_pos)) Rcap_pos
  have hrw : mutualInductanceRaw P0 capsProps 0.001 *
      -(Real.exp (-(R0 / (2 * L0)) * dt20) / L0) / capsuleResistance 1 1 =
      -(Real.exp (-(R0 / (2 * L0)) * dt20) *
        (mutualInductanceRaw P0 capsProps 0.001 * (1 / L0) /
          capsuleResistance 1 1)) := by
    ring
  rw [hrw]
  nlinarith [mul_pos hA (sub_pos.mpr exp_decay_bound)]

/-- C2 counterexample: an actual run prefix violates the invariant. For the
freshly constructed service svc20 (capsule at the stage position, one
weakly damped stage, dt = π/ω_d) the first two loop-guard checks of
run(1.0) succeed, so the loop performs these two steps, and the second
step's current-induction update leaves the capsule current negative. -/
theorem C2_counterexample :
    (svc20R.time < 1 ∧ svc20R.capsule.position < svc20R.tubeLength) ∧
    (svc20S1.time < 1 ∧ svc20S1.capsule.position < svc20S1.tubeLength) ∧
    (stepSim svc20S1).capsule.current < 0 := by
  have hcap : svc20S1.capsule = ⟨capsProps, c1v, 1, 0, 0⟩ := step1_capsule
  have ht : svc20S1.time = dt20 := by
    show svc20R.time + svc20R.dt = dt20
    show (0:ℝ) + dt20 = dt20
    rw [zero_add]
  refine ⟨⟨show (0:ℝ) < 1 by norm_num, show (0:ℝ) < 1 by norm_num⟩,
    ⟨?_, ?_⟩, run2_current_neg⟩
  · rw [ht]
    exact dt20_lt_one
  · rw [show svc20S1.capsule.position =
      (⟨capsProps, c1v, 1, 0, 0⟩ : Capsule).position from by rw [hcap]]
    show (0:ℝ) < 1
    norm_num

/-- C2 (amended): set_current rejects negative values with a validation
error and stores nonnegative ones, but the orchestrator's per-step
current-induction update assigns the capsule current directly (not through
set_current) and can drive it negative during a run, so the ≥ 0 invariant
is not preserved by every mutation. -/
theorem C2_current_invariant :
    (∀ (c : Capsule) (v : ℝ), v < 0 →
      c.setCurrent v = .error "Current cannot be negative") ∧
    (∀ (c : Capsule) (v : ℝ), 0 ≤ v →
      c.setCurrent v = .ok { c with current := v }) ∧
    (stepSim svc20S1).capsule.current < 0 := by
  refine ⟨fun c v hv => ?_, fun c v hv => ?_, run2_current_neg⟩
  · unfold Capsule.setCurrent
    rw [if_pos hv]
  · unfold Capsule.setCurrent
    rw [if_neg (not_lt.mpr hv)]

/-- C2 witness: the amended theorem applied at current −1 and at current
2. -/
theorem C2_current_invariant_witness :
    testCapsule.setCurrent (-1) = .error "Current cannot be negative" ∧
    testCapsule.setCurrent 2 = .ok { testCapsule with current := 2 } :=
  ⟨C2_current_invariant.1 testCapsule (-1) (by norm_num),
   C2_current_invariant.2.1 testCapsule 2 (by norm_num)⟩

/-! C1: monotonic decay of mutual inductance. -/

/-- Near-field mutual inductance between two unit coils at distance
d ∈ [0, 1). -/
theorem unit_near_eval (d : ℝ) (h0 : 0 ≤ d) (h1 : d < 1) :
    calculateMutualInductance unitProps unitProps d =
      .ok (mu0 * (1 / 2) * 1 * (1 - d)) := by
  unfold calculateMutualInductance
  rw [if_neg (not_lt.mpr h0)]
  unfold mutualInductanceRaw
  rw [if_pos (show d < max unitProps.length unitProps.length by
    rw [show max unitProps.length unitProps.length = (1 : ℝ) by
      norm_num [unitProps]]
    exact h1)]
  simp only [overlappingInductance, unitProps]
  congr 1
  rw [show (1 : ℝ) / 2 * (1 / 2) = (1 / 2) ^ 2 by norm_num,
    Real.sqrt_sq (by norm_num : (0 : ℝ) ≤ 1 / 2)]
  push_cast
  rw [show ((1 : ℝ) * 1) = 1 by norm_num, Real.sqrt_one]
  rw [show max (1 : ℝ) 1 = 1 by norm_num, div_one]
  rw [max_eq_right (by linarith : (0 : ℝ) ≤ 1 - d)]

/-- C1 counterexample: for the unit coils (valid elements) and
0 ≤ d1 = 0.999 < d2 = 1, the mutual inductance is μ₀/2000 at d1 (near-field
branch, overlap 0.001) but μ₀π/16 at d2 (far-field branch), and
μ₀/2000 < μ₀π/16: the inductance increases across the branch boundary, so
strict decay fails there. -/
theorem C1_counterexample :
    calculateMutualInductance unitProps unitProps (999 / 1000) =
      .ok (mu0 / 2000) ∧
    calculateMutualInductance unitProps unitProps 1 =
      .ok (mu0 * Real.pi / 16) ∧
    mu0 / 2000 < mu0 * Real.pi / 16 := by
  refine ⟨?_, ?_, ?_⟩
  · rw [unit_near_eval (999 / 1000) (by norm_num) (by norm_num)]
    congr 1
    ring
  · unfold calculateMutualInductance
    rw [if_neg (by norm_num : ¬ (1 : ℝ) < 0)]
    unfold mutualInductanceRaw
    rw [if_neg (show ¬ (1 : ℝ) < max unitProps.length unitProps.length by
      norm_num [unitProps])]
    simp only [farFieldInductance, unitProps]
    congr 1
    push_cast
    rw [show ((1 : ℝ) * 1) = 1 by norm_num, Real.sqrt_one]
    ring
  · nlinarith [Real.pi_gt_three, mu0_pos]

/-- Within the near-field branch the inductance strictly decreases. -/
theorem overlapping_strict_anti (p1 p2 : CoilProperties) (d1 d2 : ℝ)
    (ht1 : 0 < p1.turns) (ht2 : 0 < p2.turns)
    (hd1 : 0 < p1.diameter) (hd2 : 0 < p2.diameter)
    (hl1 : 0 < p1.length)
    (h0 : 0 ≤ d1) (h12 : d1 < d2) (h2 : d2 < max p1.length p2.length) :
    overlappingInductance p1 p2 d2 < overlappingInductance p1 p2 d1 := by
  have hL : (0 : ℝ) < max p1.length p2.length :=
    lt_of_lt_of_le hl1 (le_max_left _ _)
  have hK : 0 < mu0 * Real.sqrt (p1.diameter / 2 * (p2.diameter / 2)) *
      Real.sqrt ((p1.turns : ℝ) * (p2.turns : ℝ)) := by
    apply mul_pos (mul_pos mu0_pos ?_) ?_
    · exact Real.sqrt_pos.mpr (by positivity)
    · apply Real.sqrt_pos.mpr
      have c1 : (0 : ℝ) < (p1.turns : ℝ) := by exact_mod_cast ht1
      have c2 : (0 : ℝ) < (p2.turns : ℝ) := by exact_mod_cast ht2
      exact mul_pos c1 c2
  have hov2 : (0 : ℝ) ≤ 1 - d2 / max p1.length p2.length := by
    have : d2 / max p1.length p2.length < 1 := (div_lt_one hL).mpr h2
    linarith
  have hov1 : (0 : ℝ) ≤ 1 - d1 / max p1.length p2.length := by
    have : d1 / max p1.length p2.length < 1 :=
      (div_lt_one hL).mpr (lt_trans h12 h2)
    linarith
  simp only [overlappingInductance]
  rw [max_eq_right hov1, max_eq_right hov2]
  apply mul_lt_mul_of_pos_left ?_ hK
  have hdiv : d1 / max p1.length p2.length < d2 / max p1.length p2.length :=
    div_lt_div_of_pos_right h12 hL
  linarith

/-- Within the far-field branch the inductance strictly decreases. -/
theorem farfield_strict_anti (p1 p2 : CoilProperties) (d1 d2 : ℝ)
    (ht1 : 0 < p1.turns) (ht2 : 0 < p2.turns)
    (hd1 : 0 < p1.diameter) (hd2 : 0 < p2.diameter)
    (hl1 : 0 < p1.length)
    (h1 : max p1.length p2.length ≤ d1) (h12 : d1 < d2) :
    farFieldInductance p1 p2 d2 < farFieldInductance p1 p2 d1 := by
  have hL : (0 : ℝ) < max p1.length p2.length :=
    lt_of_lt_of_le hl1 (le_max_left _ _)
  have hd1p : (0 : ℝ) < d1 := lt_of_lt_of_le hL h1
  have hK : 0 < mu0 * Real.pi * (p1.diameter / 2) ^ 2 * (p2.diameter / 2) ^ 2 *
      Real.sqrt ((p1.turns : ℝ) * (p2.turns : ℝ)) := by
    apply mul_pos (mul_pos (mul_pos (mul_pos mu0_pos Real.pi_pos) ?_) ?_) ?_
    · positivity
    · positivity
    · apply Real.sqrt_pos.mpr
      have c1 : (0 : ℝ) < (p1.turns : ℝ) := by exact_mod_cast ht1
      have c2 : (0 : ℝ) < (p2.turns : ℝ) := by exact_mod_cast ht2
      exact mul_pos c1 c2
  simp only [farFieldInductance]
  apply div_lt_div_of_pos_left hK (by positivity)
  exact pow_lt_pow_left h12 (le_of_lt hd1p) (by norm_num)

/-- C1 (amended): mutual inductance is strictly decreasing in distance
within each branch (both distances in the near-field region, or both in the
far-field region); across the near/far boundary it can jump upward, as the
counterexample shows. -/
theorem C1_monotonic_within_branch (p1 p2 : CoilProperties) (d1 d2 m1 m2 : ℝ)
    (ht1 : 0 < p1.turns) (ht2 : 0 < p2.turns)
    (hd1 : 0 < p1.diameter) (hd2 : 0 < p2.diameter)
    (hl1 : 0 < p1.length) (hl2 : 0 < p2.length)
    (h0 : 0 ≤ d1) (h12 : d1 < d2)
    (hbranch : d2 < max p1.length p2.length ∨ max p1.length p2.length ≤ d1)
    (e1 : calculateMutualInductance p1 p2 d1 = .ok m1)
    (e2 : calculateMutualInductance p1 p2 d2 = .ok m2) :
    m2 < m1 := by
  have h0d2 : (0 : ℝ) ≤ d2 := le_trans h0 (le_of_lt h12)
  unfold calculateMutualInductance at e1 e2
  rw [if_neg (not_lt.mpr h0)] at e1
  rw [if_neg (not_lt.mpr h0d2)] at e2
  have hm1 : mutualInductanceRaw p1 p2 d1 = m1 := by injection e1
  have hm2 : mutualInductanceRaw p1 p2 d2 = m2 := by injection e2
  rw [← hm1, ← hm2]
  rcases hbranch with hnear | hfar
  · unfold mutualInductanceRaw
    rw [if_pos (lt_trans h12 hnear), if_pos hnear]
    exact overlapping_strict_anti p1 p2 d1 d2 ht1 ht2 hd1 hd2 hl1 h0 h12 hnear
  · unfold mutualInductanceRaw
    rw [if_neg (not_lt.mpr hfar),
      if_neg (not_lt.mpr (le_of_lt (lt_of_le_of_lt hfar h12)))]
    exact farfield_strict_anti p1 p2 d1 d2 ht1 ht2 hd1 hd2 hl1 hfar h12

/-- C1 witness: the amended theorem at the unit coils, d1 = 0, d2 = 1/2,
both in the near-field branch. -/
theorem C1_monotonic_within_branch_witness :
    mu0 * (1 / 2) * 1 * (1 - 1 / 2) < mu0 * (1 / 2) * 1 * (1 - 0) :=
  C1_monotonic_within_branch unitProps unitProps 0 (1 / 2)
    (mu0 * (1 / 2) * 1 * (1 - 0)) (mu0 * (1 / 2) * 1 * (1 - 1 / 2))
    (by norm_num [unitProps]) (by norm_num [unitProps])
    (by norm_num [unitProps]) (by norm_num [unitProps])
    (by norm_num [unitProps]) (by norm_num [unitProps])
    le_rfl (by norm_num)
    (Or.inl (by norm_num [unitProps]))
    (unit_near_eval 0 le_rfl (by norm_num))
    (unit_near_eval (1 / 2) (by norm_num) (by norm_num))

/-! C7: the RLC current branches of get_current. -/

/-- C7: get_current returns 0 when the stage is inactive, unactivated or
queried before activation; otherwise, with α = R/(2L) and ω₀ = 1/√(LC), it
returns the clamped underdamped waveform when α < ω₀, the clamped critically
damped waveform when α = ω₀, and exactly 0 when ω₀ < α (overdamped); the
clamp max(0, ·) is applied in every branch. -/
theorem C7_getCurrent_branches (s : AccelerationStage) (t t0 : ℝ) :
    (s.isActive = false → s.getCurrent t = 0) ∧
    (s.activationTime = none → s.getCurrent t = 0) ∧
    (s.activationTime = some t0 → t < t0 → s.getCurrent t = 0) ∧
    (s.isActive = true → s.activationTime = some t0 → t0 ≤ t →
      (s.props.resistance / (2 * inductanceOf s.props) <
          1 / Real.sqrt (inductanceOf s.props * s.capacitance) →
        s.getCurrent t = max 0 ((s.voltage /
            (Real.sqrt ((1 / Real.sqrt (inductanceOf s.props * s.capacitance)) ^ 2 -
              (s.props.resistance / (2 * inductanceOf s.props)) ^ 2) *
              inductanceOf s.props)) *
          Real.exp (-(s.props.resistance / (2 * inductanceOf s.props)) * (t - t0)) *
          Real.sin (Real.sqrt ((1 / Real.sqrt (inductanceOf s.props * s.capacitance)) ^ 2 -
              (s.props.resistance / (2 * inductanceOf s.props)) ^ 2) * (t - t0)))) ∧
      (s.props.resistance / (2 * inductanceOf s.props) =
          1 / Real.sqrt (inductanceOf s.props * s.capacitance) →
        s.getCurrent t = max 0 ((s.voltage / inductanceOf s.props) * (t - t0) *
          Real.exp (-(s.props.resistance / (2 * inductanceOf s.props)) * (t - t0)))) ∧
      (1 / Real.sqrt (inductanceOf s.props * s.capacitance) <
          s.props.resistance / (2 * inductanceOf s.props) →
        s.getCurrent t = 0)) := by
  refine ⟨fun h => ?_, fun h => ?_, fun hsome hlt => ?_,
    fun hact hsome hle => ⟨fun hu => ?_, fun hc => ?_, fun ho => ?_⟩⟩
  · unfold AccelerationStage.getCurrent
    rw [h]
    simp
  · unfold AccelerationStage.getCurrent
    rw [h]
    split
    · rfl
    · rfl
  · unfold AccelerationStage.getCurrent
    rw [hsome]
    split
    · rfl
    · exact if_pos hlt
  · unfold AccelerationStage.getCurrent
    simp only [hact, hsome, Bool.true_eq_false, if_false]
    rw [if_neg (not_lt.mpr hle), if_pos hu]
  · unfold AccelerationStage.getCurrent
    simp only [hact, hsome, Bool.true_eq_false, if_false]
    rw [if_neg (not_lt.mpr hle), if_neg (by rw [hc]; exact lt_irrefl _),
      if_pos hc]
  · unfold AccelerationStage.getCurrent
    simp only [hact, hsome, Bool.true_eq_false, if_false]
    rw [if_neg (not_lt.mpr hle), if_neg (not_lt.mpr (le_of_lt ho)),
      if_neg (ne_of_gt ho)]
    exact max_self 0

/-- C7 witness: the before-activation clause at the test stage and t = −1. -/
theorem C7_getCurrent_branches_witness : stageU.getCurrent (-1) = 0 :=
  (C7_getCurrent_branches stageU (-1) 0).2.2.1 rfl (by norm_num)

/-! C8: the derivative is unclamped. -/

/-- Time inside the first negative half-cycle of the test stage current. -/
def tC8 : ℝ := 5 * Real.pi / (4 * omegaDU)

theorem tC8_pos : 0 < tC8 := by
  unfold tC8
  exact div_pos (by positivity) (mul_pos (by norm_num) omegaDU_pos)

theorem omegaDU_tC8 : omegaDU * tC8 = 5 * Real.pi / 4 := by
  have h : omegaDU ≠ 0 := ne_of_gt omegaDU_pos
  unfold tC8
  field_simp
  ring

theorem sin_five_pi_div_four :
    Real.sin (5 * Real.pi / 4) = -(Real.sqrt 2 / 2) := by
  rw [show 5 * Real.pi / 4 = Real.pi + Real.pi / 4 by ring, Real.sin_add,
    Real.sin_pi, Real.cos_pi, Real.sin_pi_div_four]
  ring

theorem cos_five_pi_div_four :
    Real.cos (5 * Real.pi / 4) = -(Real.sqrt 2 / 2) := by
  rw [show 5 * Real.pi / 4 = Real.pi + Real.pi / 4 by ring, Real.cos_add,
    Real.sin_pi, Real.cos_pi, Real.cos_pi_div_four]
  ring

/-- During the negative half-cycle the raw current is negative, so
get_current clamps it to 0. -/
theorem stageU_tC8_current_zero : stageU.getCurrent tC8 = 0 := by
  rw [stageU_getCurrent_eval tC8 (le_of_lt tC8_pos), omegaDU_tC8,
    sin_five_pi_div_four]
  apply max_eq_left
  apply le_of_lt
  apply mul_neg_of_pos_of_neg
  · exact mul_pos (one_div_pos.mpr (mul_pos omegaDU_pos L0_pos))
      (Real.exp_pos _)
  · have h2 : 0 < Real.sqrt 2 := Real.sqrt_pos.mpr (by norm_num)
    linarith

/-- At the same instant the unclamped derivative is strictly negative. -/
theorem stageU_tC8_deriv_neg : stageU.getCurrentDerivative tC8 < 0 := by
  rw [stageU_getCurrentDerivative_eval tC8 (le_of_lt tC8_pos), omegaDU_tC8,
    sin_five_pi_div_four, cos_five_pi_div_four]
  rw [show omegaDU * -(Real.sqrt 2 / 2) -
      R0 / (2 * L0) * -(Real.sqrt 2 / 2) =
      Real.sqrt 2 / 2 * (R0 / (2 * L0) - omegaDU) by ring]
  apply mul_neg_of_pos_of_neg
  · exact mul_pos (one_div_pos.mpr (mul_pos omegaDU_pos L0_pos))
      (Real.exp_pos _)
  · apply mul_neg_of_pos_of_neg
    · have h2 : 0 < Real.sqrt 2 := Real.sqrt_pos.mpr (by norm_num)
      linarith
    · linarith [alphaU_lt_omegaDU]

/-- C8: get_current_derivative applies the same guards and branch selection
as get_current but returns the analytic derivative with no zero-clamp; in
particular, at the concrete underdamped test stage and t = 5π/(4ω_d) the
current reads 0 (clamped) while the derivative is strictly negative. -/
theorem C8_getCurrentDerivative_unclamped (s : AccelerationStage) (t t0 : ℝ) :
    ((s.isActive = false → s.getCurrentDerivative t = 0) ∧
     (s.activationTime = none → s.getCurrentDerivative t = 0) ∧
     (s.activationTime = some t0 → t < t0 → s.getCurrentDerivative t = 0) ∧
     (s.isActive = true → s.activationTime = some t0 → t0 ≤ t →
       (s.props.resistance / (2 * inductanceOf s.props) <
           1 / Real.sqrt (inductanceOf s.props * s.capacitance) →
         s.getCurrentDerivative t = (s.voltage /
             (Real.sqrt ((1 / Real.sqrt (inductanceOf s.props * s.capacitance)) ^ 2 -
               (s.props.resistance / (2 * inductanceOf s.props)) ^ 2) *
               inductanceOf s.props)) *
           Real.exp (-(s.props.resistance / (2 * inductanceOf s.props)) * (t - t0)) *
           (Real.sqrt ((1 / Real.sqrt (inductanceOf s.props * s.capacitance)) ^ 2 -
               (s.props.resistance / (2 * inductanceOf s.props)) ^ 2) *
             Real.cos (Real.sqrt ((1 / Real.sqrt (inductanceOf s.props * s.capacitance)) ^ 2 -
               (s.props.resistance / (2 * inductanceOf s.props)) ^ 2) * (t - t0)) -
            s.props.resistance / (2 * inductanceOf s.props) *
             Real.sin (Real.sqrt ((1 / Real.sqrt (inductanceOf s.props * s.capacitance)) ^ 2 -
               (s.props.resistance / (2 * inductanceOf s.props)) ^ 2) * (t - t0)))) ∧
       (s.props.resistance / (2 * inductanceOf s.props) =
           1 / Real.sqrt (inductanceOf s.props * s.capacitance) →
         s.getCurrentDerivative t = (s.voltage / inductanceOf s.props) *
           Real.exp (-(s.props.resistance / (2 * inductanceOf s.props)) * (t - t0)) *
           (1 - s.props.resistance / (2 * inductanceOf s.props) * (t - t0))) ∧
       (1 / Real.sqrt (inductanceOf s.props * s.capacitance) <
           s.props.resistance / (2 * inductanceOf s.props) →
         s.getCurrentDerivative t = 0))) ∧
    (stageU.getCurrent tC8 = 0 ∧ stageU.getCurrentDerivative tC8 < 0) := by
  refine ⟨⟨fun h => ?_, fun h => ?_, fun hsome hlt => ?_,
    fun hact hsome hle => ⟨fun hu => ?_, fun hc => ?_, fun ho => ?_⟩⟩,
    stageU_tC8_current_zero, stageU_tC8_deriv_neg⟩
  · unfold AccelerationStage.getCurrentDerivative
    rw [h]
    simp
  · unfold AccelerationStage.getCurrentDerivative
    rw [h]
    split
    · rfl
    · rfl
  · unfold AccelerationStage.getCurrentDerivative
    rw [hsome]
    split
    · rfl
    · exact if_pos hlt
  · unfold AccelerationStage.getCurrentDerivative
    simp only [hact, hsome, Bool.true_eq_false, if_false]
    rw [if_neg (not_lt.mpr hle), if_pos hu]
  · unfold AccelerationStage.getCurrentDerivative
    simp only [hact, hsome, Bool.true_eq_false, if_false]
    rw [if_neg (not_lt.mpr hle), if_neg (by rw [hc]; exact lt_irrefl _),
      if_pos hc]
  · unfold AccelerationStage.getCurrentDerivative
    simp only [hact, hsome, Bool.true_eq_false, if_false]
    rw [if_neg (not_lt.mpr hle), if_neg (not_lt.mpr (le_of_lt ho)),
      if_neg (ne_of_gt ho)]

/-- C8 witness: the before-activation clause at the test stage and t = −1. -/
theorem C8_getCurrentDerivative_unclamped_witness :
    stageU.getCurrentDerivative (-1) = 0 :=
  (C8_getCurrentDerivative_unclamped stageU (-1) 0).1.2.2.1 rfl (by norm_num)

end
